import Mathlib

/-!
# tulov/storages: the storage contract and its two adapters

A shallow embedding of `storages.go`, `FS/fs.go` and `S3/s3.go`.

* Go `error` values are the inductive `GoError`; a nil `error` is `none`.
* The adapters are translated statement by statement.  The operating system
  (`os.Stat`, `os.Open`, `os.Create`, `os.Remove`, `os.MkdirAll`, `io.Copy`),
  the path helpers of the Go standard library (`filepath.Join`, `filepath.Clean`,
  `filepath.Dir`, `filepath.Ext`) and the S3 client are external collaborators:
  the adapters are written over explicit models of them.
* A run-time panic of the Go program (nil pointer dereference) is the
  constructor `Outcome.panic`.
-/

set_option autoImplicit false

/-! ## Go values shared by both adapters -/

/-- A byte of content. -/
abbrev Byte := Nat

/-- Go error values.  `errorString addr msg` is a value made by `errors.New`:
it is a pointer, so two such values are equal only when they are the same
allocation, which `addr` stands for. -/
inductive GoError where
  /-- Value of `errors.New(msg)`, allocated at `addr`. -/
  | errorString (addr : Nat) (msg : String)
  /-- Value of type `syscall.Errno`. -/
  | errno (code : Nat)
  /-- Value of type `*fs.PathError`. -/
  | pathError (op : String) (path : String) (err : GoError)
  /-- Value of type `*os.LinkError`. -/
  | linkError (op : String) (old : String) (new : String) (err : GoError)
  /-- Value of type `*os.SyscallError`. -/
  | syscallError (call : String) (err : GoError)
  /-- Value of type `*smithy.GenericAPIError`. -/
  | genericAPIError (code : String) (message : String)
  /-- Value of type `*http.ResponseError` of smithy-go, with its HTTP status. -/
  | responseError (status : Nat) (err : GoError)
  /-- Value of type `*smithy.OperationError`. -/
  | operationError (service : String) (operation : String) (err : GoError)
  deriving DecidableEq, Repr

namespace GoError

/-- The `Unwrap` method of each error type (`none` when the type has none). -/
def Unwrap : GoError → Option GoError
  | pathError _ _ e => some e
  | linkError _ _ _ e => some e
  | syscallError _ e => some e
  | responseError _ e => some e
  | operationError _ _ e => some e
  | errorString _ _ => none
  | errno _ => none
  | genericAPIError _ _ => none

/-- The chain `err, Unwrap(err), Unwrap(Unwrap(err)), ...` walked by
`errors.Is` and `errors.As`. -/
def chain : GoError → List GoError
  | pathError op p e => pathError op p e :: chain e
  | linkError op o n e => linkError op o n e :: chain e
  | syscallError c e => syscallError c e :: chain e
  | responseError s e => responseError s e :: chain e
  | operationError s o e => operationError s o e :: chain e
  | errorString a m => [errorString a m]
  | errno c => [errno c]
  | genericAPIError c m => [genericAPIError c m]

end GoError

namespace syscall

def EPERM : Nat := 1
def ENOENT : Nat := 2
def EACCES : Nat := 13
def EEXIST : Nat := 17
def ENOTDIR : Nat := 20
def EISDIR : Nat := 21
def ENOTEMPTY : Nat := 39
def EBADF : Nat := 9
def EBUSY : Nat := 16

end syscall

namespace oserror

/-- The value `oserror.ErrNotExist` (also `fs.ErrNotExist`, `os.ErrNotExist`). -/
def ErrNotExist : GoError := GoError.errorString 1 "file does not exist"
/-- The value `oserror.ErrExist`. -/
def ErrExist : GoError := GoError.errorString 2 "file already exists"
/-- The value `oserror.ErrPermission`. -/
def ErrPermission : GoError := GoError.errorString 3 "permission denied"

end oserror

namespace syscall

/-- The method `Errno.Is` of package `syscall` (Unix). -/
def Errno_Is (e : Nat) (target : GoError) : Bool :=
  if target = oserror.ErrPermission then e = EACCES || e = EPERM
  else if target = oserror.ErrExist then e = EEXIST || e = ENOTEMPTY
  else if target = oserror.ErrNotExist then e = ENOENT
  else false

end syscall

namespace errors

/-- One step of `errors.Is`: `err == target`, or the `Is` method of `err`
(only `syscall.Errno` has one among the modelled types). -/
def isStep (target : GoError) (err : GoError) : Bool :=
  err = target ||
    (match err with
     | GoError.errno c => syscall.Errno_Is c target
     | _ => false)

/-- Go `errors.Is(err, target)` for a possibly nil `err`. -/
def Is (err : Option GoError) (target : GoError) : Bool :=
  match err with
  | none => false
  | some e => e.chain.any (isStep target)

/-- Go `errors.As(err, &re)` with `re` of type `*http.ResponseError`: the
first `*http.ResponseError` of the chain, given by its fields `(status, Err)`. -/
def AsResponseError (err : GoError) : Option (Nat × GoError) :=
  err.chain.findSome? (fun e =>
    match e with
    | GoError.responseError s inner => some (s, inner)
    | _ => none)

/-- Go `errors.As(err, &gae)` with `gae` of type `*smithy.GenericAPIError`:
the first such error of the chain, given by its fields `(Code, Message)`. -/
def AsGenericAPIError (err : GoError) : Option (String × String) :=
  err.chain.findSome? (fun e =>
    match e with
    | GoError.genericAPIError c m => some (c, m)
    | _ => none)

end errors

deriving instance DecidableEq for Except

/-- What a Go call does: it returns a value, or the goroutine panics. -/
inductive Outcome (α : Type) where
  | ret (v : α)
  | panic (msg : String)
  deriving DecidableEq, Repr

/-- An `io.Reader` handed to `Save`: it yields `data` and then ends with
`io.EOF` (`err = none`) or fails with `err`; `seekable` tells whether its
dynamic type also implements `io.Seeker`. -/
structure Reader where
  data : List Byte
  err : Option GoError
  seekable : Bool
  deriving DecidableEq, Repr

namespace os

/-- An open `os.File`, named by the path it was opened with. -/
structure File where
  name : String
  deriving DecidableEq, Repr

end os

namespace io

/-- Go `io.ReadAll`: the bytes read and the error (`io.EOF` is not an error). -/
def ReadAll (r : Reader) : List Byte × Option GoError := (r.data, r.err)

/-- An `io.ReadCloser` interface value as the adapters return it: the nil
interface, a response body that yields `data`, or a `*os.File` (the pointer
itself may be nil: `osFile none` is a non-nil interface holding a nil
pointer). -/
inductive ReadCloser where
  | nil
  | body (data : List Byte)
  | osFile (f : Option os.File)
  deriving DecidableEq, Repr

end io

namespace bytes

/-- Go `bytes.NewBuffer(b)` / `bytes.NewBufferString`: a `*bytes.Buffer`, which
is an `io.Reader` and not an `io.Seeker`. -/
def NewBuffer (b : List Byte) : Reader := { data := b, err := none, seekable := false }

/-- Go `bytes.NewReader(b)`: a `*bytes.Reader`, which is an `io.Seeker`. -/
def NewReader (b : List Byte) : Reader := { data := b, err := none, seekable := true }

end bytes

namespace storages

/-- The struct `storages.Stat`. -/
structure Stat where
  ModifiedTime : Nat
  Size : Int
  deriving DecidableEq, Repr

/-- The sentinel `storages.ErrNotExist = errors.New("does not exist")`. -/
def ErrNotExist : GoError := GoError.errorString 0 "does not exist"

end storages

/-! ## Standard-library helpers used by the adapters -/

namespace filepath

/-- Go `filepath.Ext`: the suffix starting at the last dot of the last path
element, scanning `rev` (the path reversed, last byte first) with the suffix
seen so far in `acc`. -/
def extScan : List Char → List Char → List Char
  | [], _ => []
  | c :: rest, acc =>
    if c = '/' then []
    else if c = '.' then c :: acc
    else extScan rest (c :: acc)

/-- Go `filepath.Ext(path)` (Unix). -/
def Ext (path : String) : String := String.mk (extScan path.data.reverse [])

end filepath

namespace mime

/-- The tables `mime.TypeByExtension` consults, built at run time from the
built-in list and the system's mime.types files: `mimeTypes` (keys as
registered), `mimeTypesLower` (keys lower-cased), and `strings.ToLower`, used
for an extension that is not pure ASCII. -/
structure Tables where
  mimeTypes : List (String × String)
  mimeTypesLower : List (String × String)
  ToLower : String → String

/-- Lower-casing of one ASCII byte: `c + ('a' - 'A')` for `'A' <= c <= 'Z'`. -/
def lowerByte (c : Char) : Char :=
  if 'A' ≤ c ∧ c ≤ 'Z' then Char.ofNat (c.toNat + 32) else c

/-- Go `mime.TypeByExtension(ext)`: the case-sensitive lookup, then the
lookup of the lower-cased extension, and `""` when both fail. -/
def TypeByExtension (t : Tables) (ext : String) : String :=
  match t.mimeTypes.lookup ext with
  | some v => v
  | none =>
    if ext.data.any (fun c => 128 ≤ c.toNat) then
      (t.mimeTypesLower.lookup (t.ToLower ext)).getD ""
    else
      (t.mimeTypesLower.lookup (String.mk (ext.data.map lowerByte))).getD ""

end mime

/-! ## Path helpers of `path/filepath` (Unix) -/

namespace filepath

/-- The elements of a path: the pieces between separators (empty pieces
included). -/
def splitSep : List Char → List (List Char)
  | [] => [[]]
  | c :: cs =>
    if c = '/' then [] :: splitSep cs
    else
      match splitSep cs with
      | [] => [[c]]
      | seg :: rest => (c :: seg) :: rest

/-- Elements joined by single separators. -/
def joinSep : List (List Char) → List Char
  | [] => []
  | [a] => a
  | a :: b :: rest => a ++ '/' :: joinSep (b :: rest)

/-- One round of the loop of `filepath.Clean`, for the path element `seg`;
`out` is the list of elements written so far.  An empty element and `.` are
skipped; `..` removes the last element when that is a real one, is kept when
the path is not rooted, and is dropped at the root; any other element is
appended. -/
def cleanStep (rooted : Bool) (out : List (List Char)) (seg : List Char) : List (List Char) :=
  if seg = [] ∨ seg = ['.'] then out
  else if seg = ['.', '.'] then
    if out ≠ [] ∧ out.getLast? ≠ some ['.', '.'] then out.dropLast
    else if ¬ rooted then out ++ [seg]
    else out
  else out ++ [seg]

/-- The string `filepath.Clean` builds from the elements written: the leading
separator of a rooted path, and `.` for an empty result. -/
def render (rooted : Bool) (out : List (List Char)) : List Char :=
  if rooted then '/' :: joinSep out
  else if out = [] then ['.'] else joinSep out

/-- Go `filepath.Clean` on the bytes of a non-empty path. -/
def cleanChars (cs : List Char) : List Char :=
  let rooted : Bool := cs.head? = some '/'
  render rooted ((splitSep cs).foldl (cleanStep rooted) [])

/-- Go `filepath.Clean(path)`. -/
def Clean (path : String) : String :=
  if path = "" then "." else String.mk (cleanChars path.data)

/-- Go `filepath.Join(a, b)`: the first non-empty argument onwards, joined by
a separator and cleaned; `""` when both are empty. -/
def Join (a b : String) : String :=
  if a ≠ "" then Clean (a ++ "/" ++ b)
  else if b ≠ "" then Clean b
  else ""

/-- Whether a path has a parent-directory element `..`. -/
def hasDotDot (path : String) : Bool := (splitSep path.data).contains ['.', '.']

/-- The part of a path up to and including its last separator. -/
def dirPart : List Char → List Char
  | [] => []
  | c :: cs =>
    if cs.contains '/' then c :: dirPart cs
    else if c = '/' then [c] else []

/-- Go `filepath.Dir(path)`. -/
def Dir (path : String) : String := Clean (String.mk (dirPart path.data))

end filepath

/-! ## The object-store adapter (`S3/s3.go`) -/

namespace S3

/-- The struct `s3.PutObjectInput` (the fields the adapter sets; an unset
pointer field is `none`, the unset `int64` field `ContentLength` is `0`). -/
structure PutObjectInput where
  Bucket : Option String
  Key : Option String
  Body : Reader
  ContentLength : Int := 0
  ContentType : Option String := none
  deriving DecidableEq, Repr

/-- Per-call options given to `PutObject`. -/
inductive APIOption where
  /-- Option `v4.SwapComputePayloadSHA256ForUnsignedPayloadMiddleware`. -/
  | SwapComputePayloadSHA256ForUnsignedPayloadMiddleware
  deriving DecidableEq, Repr

/-- The struct `s3.HeadObjectInput`. -/
structure HeadObjectInput where
  Bucket : Option String
  Key : Option String
  deriving DecidableEq, Repr

/-- The struct `s3.HeadObjectOutput` (`LastModified` is a `*time.Time`). -/
structure HeadObjectOutput where
  LastModified : Option Nat
  ContentLength : Int
  deriving DecidableEq, Repr

/-- The struct `s3.GetObjectInput`. -/
structure GetObjectInput where
  Bucket : Option String
  Key : Option String
  deriving DecidableEq, Repr

/-- The struct `s3.GetObjectOutput`. -/
structure GetObjectOutput where
  Body : io.ReadCloser
  deriving DecidableEq, Repr

/-- The struct `s3.DeleteObjectInput`. -/
structure DeleteObjectInput where
  Bucket : Option String
  Key : Option String
  deriving DecidableEq, Repr

/-- The four methods of `*s3.Client` the adapter calls, over the state `σ`
of the remote service.  An output pointer may be nil (`none`). -/
structure Client (σ : Type) where
  PutObject : σ → PutObjectInput → List APIOption → σ × Option GoError
  HeadObject : σ → HeadObjectInput → Option HeadObjectOutput × Option GoError
  GetObject : σ → GetObjectInput → Option GetObjectOutput × Option GoError
  DeleteObject : σ → DeleteObjectInput → σ × Option GoError

/-- The struct `S3.Storage`; `mimeTypes` holds the process-wide tables that
`mime.TypeByExtension` consults. -/
structure Storage (σ : Type) where
  bucket : String
  s3 : Client σ
  mimeTypes : mime.Tables

namespace Storage

variable {σ : Type}

/-- Method `Storage.Save` of `S3/s3.go`: the new service state and the returned error. -/
def Save (s : Storage σ) (st : σ) (content : Reader) (path : String) : σ × Option GoError :=
  if ¬ content.seekable then
    match io.ReadAll content with
    | (_, some err) => (st, some err)
    | (b, none) =>
      let input : PutObjectInput :=
        { Bucket := some s.bucket
          Key := some path
          Body := bytes.NewBuffer b
          ContentLength := (b.length : Int) }
      s.s3.PutObject st input [APIOption.SwapComputePayloadSHA256ForUnsignedPayloadMiddleware]
  else
    let input : PutObjectInput :=
      { Bucket := some s.bucket
        Key := some path
        Body := content
        ContentType := some (mime.TypeByExtension s.mimeTypes (filepath.Ext path)) }
    s.s3.PutObject st input []

/-- The test `errors.As(err, &re) && errors.As(re.Err, &gae) && gae.Code == code`
shared by `Stat` and `Open`. -/
def hasAPICode (err : GoError) (code : String) : Bool :=
  match errors.AsResponseError err with
  | some (_, inner) =>
    (match errors.AsGenericAPIError inner with
     | some (c, _) => c = code
     | none => false)
  | none => false

/-- The `if err != nil ... else if err != nil ...` statement of `Stat` and
`Open`: `some r` when it returns `r`, `none` when control falls through to the
statement after it. -/
def errorBranch {α : Type} (nil : α) (err : Option GoError) (code : String) :
    Option (α × Option GoError) :=
  match err with
  | some e =>
    if hasAPICode e code then some (nil, some storages.ErrNotExist)
    else none
  | none =>
    (match err with
     | some e => some (nil, some e)
     | none => none)

/-- Method `Storage.Stat` of `S3/s3.go`. -/
def Stat (s : Storage σ) (st : σ) (path : String) :
    Outcome (Option storages.Stat × Option GoError) :=
  let input : HeadObjectInput := { Bucket := some s.bucket, Key := some path }
  match s.s3.HeadObject st input with
  | (out, err) =>
    match errorBranch (none : Option storages.Stat) err "NotFound" with
    | some r => Outcome.ret r
    | none =>
      match out with
      | none => Outcome.panic "invalid memory address or nil pointer dereference"
      | some o =>
        match o.LastModified with
        | none => Outcome.panic "invalid memory address or nil pointer dereference"
        | some t => Outcome.ret (some { ModifiedTime := t, Size := o.ContentLength }, none)

/-- Method `Storage.Open` of `S3/s3.go`. -/
def Open (s : Storage σ) (st : σ) (path : String) :
    Outcome (io.ReadCloser × Option GoError) :=
  let input : GetObjectInput := { Bucket := some s.bucket, Key := some path }
  match s.s3.GetObject st input with
  | (out, err) =>
    match errorBranch io.ReadCloser.nil err "NoSuchKey" with
    | some r => Outcome.ret r
    | none =>
      match out with
      | none => Outcome.panic "invalid memory address or nil pointer dereference"
      | some o => Outcome.ret (o.Body, none)

/-- Method `Storage.Delete` of `S3/s3.go`. -/
def Delete (s : Storage σ) (st : σ) (path : String) : σ × Option GoError :=
  let input : DeleteObjectInput := { Bucket := some s.bucket, Key := some path }
  s.s3.DeleteObject st input

end Storage

end S3

/-! ## The operating system as the filesystem adapter sees it -/

namespace os

/-- What `os.Stat` reports (`fs.FileInfo`). -/
structure FileInfo where
  Size : Int
  ModTime : Nat
  IsDir : Bool
  deriving DecidableEq, Repr

/-- Go `underlyingError` of package `os`: one layer of `*PathError`,
`*LinkError` or `*SyscallError` is removed. -/
def underlyingError : GoError → GoError
  | GoError.pathError _ _ e => e
  | GoError.linkError _ _ _ e => e
  | GoError.syscallError _ e => e
  | e => e

/-- Go `underlyingErrorIs(err, target)` of package `os`. -/
def underlyingErrorIs (err : Option GoError) (target : GoError) : Bool :=
  match err with
  | none => false
  | some e =>
    let u := underlyingError e
    u = target ||
      (match u with
       | GoError.errno c => syscall.Errno_Is c target
       | _ => false)

/-- Go `os.IsNotExist(err)`. -/
def IsNotExist (err : Option GoError) : Bool := underlyingErrorIs err oserror.ErrNotExist

/-- The calls the filesystem adapter makes, over the state `σ` of the
machine.  A call that gives `(value, error)` in Go gives `Except` here: by the
contract of package `os` the value is nil exactly when the error is not. -/
structure Sys (σ : Type) where
  MkdirAll : σ → String → Nat → σ × Option GoError
  Create : σ → String → σ × Except GoError File
  /-- Go `io.Copy(w, content)`; the byte count is not used by the adapter. -/
  Copy : σ → File → Reader → σ × Option GoError
  Close : σ → File → σ
  Stat : σ → String → Except GoError FileInfo
  Open : σ → String → Except GoError File
  /-- Reading an opened file to its end. -/
  ReadAll : σ → File → List Byte × Option GoError
  Remove : σ → String → σ × Option GoError

end os

/-! ## The filesystem adapter (`FS/fs.go`) -/

namespace FS

/-- The struct `FS.Config`. -/
structure Config where
  Root : String

/-- The struct `FS.Storage`, with the operating system it runs on. -/
structure Storage (σ : Type) where
  root : String
  sys : os.Sys σ

/-- Function `NewStorage` of `FS/fs.go`. -/
def NewStorage {σ : Type} (sys : os.Sys σ) (cfg : Config) : Storage σ :=
  { root := cfg.Root, sys := sys }

namespace Storage

variable {σ : Type}

/-- Method `Storage.abs` of `FS/fs.go`. -/
def abs (fs : Storage σ) (path : String) : String := filepath.Join fs.root path

/-- Method `Storage.Save` of `FS/fs.go`: the new machine state and the returned error. -/
def Save (fs : Storage σ) (st : σ) (content : Reader) (path : String) : σ × Option GoError :=
  let abs := fs.abs path
  match fs.sys.MkdirAll st (filepath.Dir abs) 0o755 with
  | (st1, some err) => (st1, some err)
  | (st1, none) =>
    match fs.sys.Create st1 abs with
    | (st2, Except.error err) => (st2, some err)
    | (st2, Except.ok w) =>
      match fs.sys.Copy st2 w content with
      | (st3, some err) => (fs.sys.Close st3 w, some err)
      | (st3, none) => (fs.sys.Close st3 w, none)

/-- Method `Storage.Stat` of `FS/fs.go`. -/
def Stat (fs : Storage σ) (st : σ) (path : String) : Option storages.Stat × Option GoError :=
  match fs.sys.Stat st (fs.abs path) with
  | Except.error err =>
    if os.IsNotExist (some err) then (none, some storages.ErrNotExist)
    else (none, some err)
  | Except.ok fi =>
    if os.IsNotExist none then (none, some storages.ErrNotExist)
    else (some { ModifiedTime := fi.ModTime, Size := fi.Size }, none)

/-- Method `Storage.Open` of `FS/fs.go`. -/
def Open (fs : Storage σ) (st : σ) (path : String) : io.ReadCloser × Option GoError :=
  match fs.sys.Open st (fs.abs path) with
  | Except.error err =>
    if os.IsNotExist (some err) then (io.ReadCloser.nil, some storages.ErrNotExist)
    else (io.ReadCloser.osFile none, some err)
  | Except.ok f =>
    if os.IsNotExist none then (io.ReadCloser.nil, some storages.ErrNotExist)
    else (io.ReadCloser.osFile (some f), none)

/-- Method `Storage.Delete` of `FS/fs.go`. -/
def Delete (fs : Storage σ) (st : σ) (path : String) : σ × Option GoError :=
  fs.sys.Remove st (fs.abs path)

/-- The bytes a caller reads from what `Open` returned, up to the end of the
stream (`none` when there is nothing to read from). -/
def readStream (fs : Storage σ) (st : σ) (r : io.ReadCloser) : Option (List Byte) :=
  match r with
  | io.ReadCloser.osFile (some f) =>
    (match fs.sys.ReadAll st f with
     | (data, none) => some data
     | (_, some _) => none)
  | io.ReadCloser.body data => some data
  | _ => none

end Storage

end FS

/-! ## A model of the filesystem

The tree is a table from path to node.  The adapter only ever passes paths made
by `filepath.Join` and `filepath.Dir`, so a path is its own canonical name.
`Stat` and `Open` look a path up whole, `Create` checks the directory that is
to hold the file, and `Remove` checks every directory above the path, so that
a path below a regular file gives `ENOTDIR`.  Links, permissions and write
failures are not modelled. -/

namespace os

/-- A file with its content and modification time, or a directory. -/
inductive Node where
  | file (data : List Byte) (modTime : Nat)
  | dir (modTime : Nat)
  deriving DecidableEq, Repr

/-- The state of the modelled machine. -/
structure FileSystem where
  nodes : List (String × Node)
  clock : Nat
  deriving DecidableEq, Repr

namespace FileSystem

/-- The root, the working directory and a path ending in `..` are directories
that always exist and can be neither removed nor replaced. -/
def isFixedDir (p : String) : Bool :=
  p = "/" || p = "." || (filepath.splitSep p.data).getLast? = some ['.', '.']

/-- The node a path names. -/
def lookup (fs : FileSystem) (p : String) : Option Node :=
  if p = "" then none
  else if isFixedDir p then some (Node.dir 0)
  else fs.nodes.lookup p

/-- The table with `p` bound to `n`. -/
def write (fs : FileSystem) (p : String) (n : Node) : FileSystem :=
  { nodes := (p, n) :: fs.nodes.filter (fun kv => kv.1 ≠ p), clock := fs.clock + 1 }

/-- The table without `p`. -/
def erase (fs : FileSystem) (p : String) : FileSystem :=
  { nodes := fs.nodes.filter (fun kv => kv.1 ≠ p), clock := fs.clock + 1 }

/-- The directory `p` and the directories above it, outermost first. -/
def ancestors (p : String) : List String :=
  let rooted : Bool := p.data.head? = some '/'
  (((filepath.splitSep p.data).filter (fun seg => seg ≠ [])).inits).map
    (fun segs => String.mk (filepath.render rooted segs))

/-- One directory of `MkdirAll`: kept when it exists, made when it is
missing, `ENOTDIR` when the name is taken by a file. -/
def mkdirStep (acc : FileSystem × Option GoError) (p : String) : FileSystem × Option GoError :=
  match acc with
  | (fs, some err) => (fs, some err)
  | (fs, none) =>
    match fs.lookup p with
    | some (Node.dir _) => (fs, none)
    | some (Node.file _ _) =>
      (fs, some (GoError.pathError "mkdir" p (GoError.errno syscall.ENOTDIR)))
    | none => (fs.write p (Node.dir fs.clock), none)

/-- Model of `os.MkdirAll(path, perm)`. -/
def MkdirAll (fs : FileSystem) (path : String) (_perm : Nat) : FileSystem × Option GoError :=
  (ancestors path).foldl mkdirStep (fs, none)

/-- Model of `os.Create(name)`: the file is created, or truncated when it
exists; the directory holding it has to exist. -/
def Create (fs : FileSystem) (name : String) : FileSystem × Except GoError File :=
  if name = "" then
    (fs, Except.error (GoError.pathError "open" name (GoError.errno syscall.ENOENT)))
  else
    match fs.lookup name with
    | some (Node.dir _) =>
      (fs, Except.error (GoError.pathError "open" name (GoError.errno syscall.EISDIR)))
    | _ =>
      match fs.lookup (filepath.Dir name) with
      | some (Node.dir _) => (fs.write name (Node.file [] fs.clock), Except.ok { name := name })
      | some (Node.file _ _) =>
        (fs, Except.error (GoError.pathError "open" name (GoError.errno syscall.ENOTDIR)))
      | none =>
        (fs, Except.error (GoError.pathError "open" name (GoError.errno syscall.ENOENT)))

/-- Model of `io.Copy(w, content)` into a file just created: the bytes the
reader yields are written after those already there, and the reader's error
is returned. -/
def Copy (fs : FileSystem) (w : File) (content : Reader) : FileSystem × Option GoError :=
  match fs.lookup w.name with
  | some (Node.file data _) =>
    (fs.write w.name (Node.file (data ++ content.data) fs.clock), content.err)
  | _ => (fs, some (GoError.pathError "write" w.name (GoError.errno syscall.EBADF)))

/-- Model of `(*os.File).Close`. -/
def Close (fs : FileSystem) (_f : File) : FileSystem := fs

/-- Model of `os.Stat(name)`. -/
def Stat (fs : FileSystem) (name : String) : Except GoError FileInfo :=
  match fs.lookup name with
  | some (Node.file data t) => Except.ok { Size := (data.length : Int), ModTime := t, IsDir := false }
  | some (Node.dir t) => Except.ok { Size := 4096, ModTime := t, IsDir := true }
  | none => Except.error (GoError.pathError "stat" name (GoError.errno syscall.ENOENT))

/-- Model of `os.Open(name)`. -/
def Open (fs : FileSystem) (name : String) : Except GoError File :=
  match fs.lookup name with
  | some _ => Except.ok { name := name }
  | none => Except.error (GoError.pathError "open" name (GoError.errno syscall.ENOENT))

/-- Reading an opened file to its end. -/
def ReadAll (fs : FileSystem) (f : File) : List Byte × Option GoError :=
  match fs.lookup f.name with
  | some (Node.file data _) => (data, none)
  | some (Node.dir _) => ([], some (GoError.pathError "read" f.name (GoError.errno syscall.EISDIR)))
  | none => ([], some (GoError.pathError "read" f.name (GoError.errno syscall.EBADF)))

/-- Whether some node lies directly in the directory `p`. -/
def hasChild (fs : FileSystem) (p : String) : Bool :=
  fs.nodes.any (fun kv => kv.1 ≠ p && filepath.Dir kv.1 = p)

/-- Whether one of the directories above `p` is in fact a regular file. -/
def belowFile (fs : FileSystem) (p : String) : Bool :=
  (ancestors (filepath.Dir p)).any (fun a =>
    match fs.lookup a with
    | some (Node.file _ _) => true
    | _ => false)

/-- Model of `os.Remove(name)`: a file or an empty directory is removed; a
name below a regular file is `ENOTDIR`, a name that is not there `ENOENT`, a
directory that holds something `ENOTEMPTY`. -/
def Remove (fs : FileSystem) (name : String) : FileSystem × Option GoError :=
  if isFixedDir name then
    (fs, some (GoError.pathError "remove" name (GoError.errno syscall.EBUSY)))
  else if fs.belowFile name then
    (fs, some (GoError.pathError "remove" name (GoError.errno syscall.ENOTDIR)))
  else
    match fs.lookup name with
    | none => (fs, some (GoError.pathError "remove" name (GoError.errno syscall.ENOENT)))
    | some (Node.file _ _) => (fs.erase name, none)
    | some (Node.dir _) =>
      if fs.hasChild name then
        (fs, some (GoError.pathError "remove" name (GoError.errno syscall.ENOTEMPTY)))
      else (fs.erase name, none)

/-- The modelled machine as an `os.Sys`. -/
def sys : Sys FileSystem :=
  { MkdirAll := MkdirAll
    Create := Create
    Copy := Copy
    Close := Close
    Stat := Stat
    Open := Open
    ReadAll := ReadAll
    Remove := Remove }

/-- A machine with no files. -/
def empty : FileSystem := { nodes := [], clock := 0 }

end FileSystem

end os

/-! ## A model of the object store -/

namespace S3

/-- A stored object. -/
structure Object where
  body : List Byte
  contentType : Option String
  lastModified : Nat
  deriving DecidableEq, Repr

/-- The state of the service: objects by bucket and key. -/
structure Service where
  objects : List ((String × String) × Object)
  clock : Nat
  deriving DecidableEq, Repr

namespace Service

/-- An API error as the SDK delivers it: the operation error wraps the HTTP
response error, which wraps the generic API error with the service's code. -/
def apiError (operation : String) (status : Nat) (code : String) : GoError :=
  GoError.operationError "S3" operation
    (GoError.responseError status (GoError.genericAPIError code ""))

/-- The error for a request with a nil bucket or key (input validation). -/
def invalidParams (operation : String) : GoError :=
  GoError.operationError "S3" operation (GoError.errorString 100 "validation error(s) found")

/-- Model of `PutObject`: the body is read to its end and stored under the
key, replacing what was there. -/
def PutObject (sv : Service) (input : PutObjectInput) (_opts : List APIOption) :
    Service × Option GoError :=
  match input.Bucket, input.Key with
  | some b, some k =>
    (match input.Body.err with
     | some e => (sv, some (GoError.operationError "S3" "PutObject" e))
     | none =>
       ({ objects := ((b, k), { body := input.Body.data
                                contentType := input.ContentType
                                lastModified := sv.clock }) ::
            sv.objects.filter (fun kv => kv.1 ≠ (b, k))
          clock := sv.clock + 1 }, none))
  | _, _ => (sv, some (invalidParams "PutObject"))

/-- Model of `HeadObject`: the length and time of the stored object, or the
API error `NotFound` with a nil output. -/
def HeadObject (sv : Service) (input : HeadObjectInput) :
    Option HeadObjectOutput × Option GoError :=
  match input.Bucket, input.Key with
  | some b, some k =>
    (match sv.objects.lookup (b, k) with
     | some o =>
       (some { LastModified := some o.lastModified, ContentLength := (o.body.length : Int) }, none)
     | none => (none, some (apiError "HeadObject" 404 "NotFound")))
  | _, _ => (none, some (invalidParams "HeadObject"))

/-- Model of `GetObject`: the stored body, or the API error `NoSuchKey` with
a nil output. -/
def GetObject (sv : Service) (input : GetObjectInput) :
    Option GetObjectOutput × Option GoError :=
  match input.Bucket, input.Key with
  | some b, some k =>
    (match sv.objects.lookup (b, k) with
     | some o => (some { Body := io.ReadCloser.body o.body }, none)
     | none => (none, some (apiError "GetObject" 404 "NoSuchKey")))
  | _, _ => (none, some (invalidParams "GetObject"))

/-- Model of `DeleteObject`: the key is removed; an absent key is no error. -/
def DeleteObject (sv : Service) (input : DeleteObjectInput) : Service × Option GoError :=
  match input.Bucket, input.Key with
  | some b, some k =>
    ({ objects := sv.objects.filter (fun kv => kv.1 ≠ (b, k)), clock := sv.clock + 1 }, none)
  | _, _ => (sv, some (invalidParams "DeleteObject"))

/-- The modelled service as a `Client`. -/
def client : Client Service :=
  { PutObject := PutObject
    HeadObject := HeadObject
    GetObject := GetObject
    DeleteObject := DeleteObject }

/-- A service with no objects. -/
def empty : Service := { objects := [], clock := 0 }

end Service

end S3

/-! ## Concrete set-ups used in the examples -/

/-- The bytes of the string `hello`. -/
def helloBytes : List Byte := [104, 101, 108, 108, 111]

/-- The bytes of the string `hi`. -/
def hiBytes : List Byte := [104, 105]

namespace mime

/-- A small table of registered extensions (a part of Go's built-in list). -/
def builtinTables : Tables :=
  { mimeTypes := [(".html", "text/html; charset=utf-8"), (".png", "image/png"),
                  (".json", "application/json")]
    mimeTypesLower := [(".html", "text/html; charset=utf-8"), (".png", "image/png"),
                       (".json", "application/json")]
    ToLower := fun s => String.mk (s.data.map Char.toLower) }

end mime

namespace FS

/-- The filesystem adapter with the given root on the modelled machine. -/
def onModel (root : String) : Storage os.FileSystem :=
  NewStorage os.FileSystem.sys { Root := root }

/-- The filesystem adapter with root `/srv` on the modelled machine. -/
def srvStorage : Storage os.FileSystem := NewStorage os.FileSystem.sys { Root := "/srv" }

/-- The filesystem adapter with root `/data` on the modelled machine. -/
def dataStorage : Storage os.FileSystem := NewStorage os.FileSystem.sys { Root := "/data" }

end FS

namespace S3

/-- The object-store adapter for the bucket `media` of the modelled service. -/
def mediaStorage : Storage Service :=
  { bucket := "media", s3 := Service.client, mimeTypes := mime.builtinTables }

end S3

namespace os

/-- A machine on which every call is refused with `EACCES`. -/
def deniedSys : Sys Unit :=
  { MkdirAll := fun st p _ => (st, some (GoError.pathError "mkdir" p (GoError.errno syscall.EACCES)))
    Create := fun st p =>
      (st, Except.error (GoError.pathError "open" p (GoError.errno syscall.EACCES)))
    Copy := fun st w _ => (st, some (GoError.pathError "write" w.name (GoError.errno syscall.EACCES)))
    Close := fun st _ => st
    Stat := fun _ p => Except.error (GoError.pathError "stat" p (GoError.errno syscall.EACCES))
    Open := fun _ p => Except.error (GoError.pathError "open" p (GoError.errno syscall.EACCES))
    ReadAll := fun _ f => ([], some (GoError.pathError "read" f.name (GoError.errno syscall.EACCES)))
    Remove := fun st p => (st, some (GoError.pathError "remove" p (GoError.errno syscall.EACCES))) }

end os

namespace FS

/-- The filesystem adapter with root `/srv` on `os.deniedSys`. -/
def deniedStorage : Storage Unit := NewStorage os.deniedSys { Root := "/srv" }

/-- The modelled machine after `hello` was saved to `world` under `/srv`. -/
def savedHello : os.FileSystem :=
  (srvStorage.Save os.FileSystem.empty (bytes.NewBuffer helloBytes) "world").1

end FS

namespace S3

/-- A client whose calls all fail with `e` and give a nil output, which is
what the SDK's generated methods return on any error. -/
def failingClient (e : GoError) : Client Unit :=
  { PutObject := fun st _ _ => (st, some e)
    HeadObject := fun _ _ => (none, some e)
    GetObject := fun _ _ => (none, some e)
    DeleteObject := fun st _ => (st, some e) }

/-- The object-store adapter over `failingClient e`. -/
def failingStorage (e : GoError) : Storage Unit :=
  { bucket := "media", s3 := failingClient e, mimeTypes := mime.builtinTables }

/-- The API error of a request the service refuses (HTTP 403). -/
def forbidden (operation : String) : GoError := Service.apiError operation 403 "Forbidden"

/-- An error that is no HTTP response error: the connection failed. -/
def connectionRefused : GoError := GoError.errorString 200 "dial tcp: connection refused"

/-- The message of Go's nil-dereference panic. -/
def nilDeref : String := "invalid memory address or nil pointer dereference"

end S3

/-! ## Theorems: the object-store adapter -/

namespace S3

open Storage

/-- The statement before the final return of `Stat` and `Open` returns only
for an error with the expected API code. -/
theorem errorBranch_some {α : Type} (nil : α) (e : GoError) (code : String)
    (h : hasAPICode e code = true) :
    errorBranch nil (some e) code = some (nil, some storages.ErrNotExist) := by
  simp [errorBranch, h]

/-- For any other error control falls through the statement. -/
theorem errorBranch_other {α : Type} (nil : α) (e : GoError) (code : String)
    (h : hasAPICode e code = false) :
    errorBranch nil (some e) code = none := by
  simp [errorBranch, h]

/-- With a nil error control falls through the statement. -/
theorem errorBranch_none {α : Type} (nil : α) (code : String) :
    errorBranch nil none code = none := by
  simp [errorBranch]

/-- C1: at a backend error that is not the not-found API error (HTTP 403
`Forbidden`, or a failed connection, each with the nil output the SDK gives
on error) `Stat` and `Open` do not return `(nil, e)`: control falls through the
error test, the dead `else if err != nil` is skipped, and the nil output is
dereferenced. -/
theorem S3_Stat_Open_other_error_panics :
    (failingStorage (forbidden "HeadObject")).Stat () "world" = Outcome.panic nilDeref ∧
    (failingStorage (forbidden "GetObject")).Open () "world" = Outcome.panic nilDeref ∧
    (failingStorage connectionRefused).Stat () "world" = Outcome.panic nilDeref ∧
    (failingStorage connectionRefused).Open () "world" = Outcome.panic nilDeref ∧
    (failingStorage (forbidden "HeadObject")).Stat () "world" ≠
      Outcome.ret (none, some (forbidden "HeadObject")) ∧
    (failingStorage (forbidden "GetObject")).Open () "world" ≠
      Outcome.ret (io.ReadCloser.nil, some (forbidden "GetObject")) := by
  refine ⟨by decide, by decide, by decide, by decide, by decide, by decide⟩

/-- C2: when the backend answers `HeadObject` with an error in which
`errors.As` finds an HTTP response error whose inner error is a generic API
error of code `NotFound`, and `GetObject` with one of code `NoSuchKey`, `Stat`
returns `(nil, ErrNotExist)` and `Open` returns `(nil, ErrNotExist)`, and
`errors.Is(err, storages.ErrNotExist)` holds for the error returned. -/
theorem S3_Stat_Open_not_found {σ : Type} (s : Storage σ) (st : σ) (path : String)
    (outH : Option HeadObjectOutput) (eH : GoError) (statusH : Nat) (innerH : GoError)
    (msgH : String)
    (outG : Option GetObjectOutput) (eG : GoError) (statusG : Nat) (innerG : GoError)
    (msgG : String)
    (hH : s.s3.HeadObject st { Bucket := some s.bucket, Key := some path } = (outH, some eH))
    (hHre : errors.AsResponseError eH = some (statusH, innerH))
    (hHgae : errors.AsGenericAPIError innerH = some ("NotFound", msgH))
    (hG : s.s3.GetObject st { Bucket := some s.bucket, Key := some path } = (outG, some eG))
    (hGre : errors.AsResponseError eG = some (statusG, innerG))
    (hGgae : errors.AsGenericAPIError innerG = some ("NoSuchKey", msgG)) :
    s.Stat st path = Outcome.ret (none, some storages.ErrNotExist) ∧
    s.Open st path = Outcome.ret (io.ReadCloser.nil, some storages.ErrNotExist) ∧
    errors.Is (some storages.ErrNotExist) storages.ErrNotExist = true := by
  have h1 : hasAPICode eH "NotFound" = true := by simp [hasAPICode, hHre, hHgae]
  have h2 : hasAPICode eG "NoSuchKey" = true := by simp [hasAPICode, hGre, hGgae]
  refine ⟨?_, ?_, by decide⟩
  · simp only [Storage.Stat, hH, errorBranch_some _ _ _ h1]
  · simp only [Storage.Open, hG, errorBranch_some _ _ _ h2]

/-- C2, at the modelled service with no objects and the key `doesnotexist`
of the repository's test. -/
theorem S3_Stat_Open_not_found_witness :
    mediaStorage.Stat Service.empty "doesnotexist"
      = Outcome.ret (none, some storages.ErrNotExist) ∧
    mediaStorage.Open Service.empty "doesnotexist"
      = Outcome.ret (io.ReadCloser.nil, some storages.ErrNotExist) ∧
    errors.Is (some storages.ErrNotExist) storages.ErrNotExist = true :=
  S3_Stat_Open_not_found mediaStorage Service.empty "doesnotexist"
    none (Service.apiError "HeadObject" 404 "NotFound") 404 (GoError.genericAPIError "NotFound" "") ""
    none (Service.apiError "GetObject" 404 "NoSuchKey") 404 (GoError.genericAPIError "NoSuchKey" "") ""
    (by decide) (by decide) (by decide) (by decide) (by decide) (by decide)

end S3

namespace S3

open Storage

/-- What `HeadObject` of the modelled service answers right after a
`PutObject` of the same bucket and key. -/
theorem Service.head_after_put (sv : Service) (b k : String) (body : Reader)
    (len : Int) (ct : Option String) (opts : List APIOption) (h : body.err = none) :
    Service.HeadObject
        (Service.PutObject sv
          { Bucket := some b, Key := some k, Body := body, ContentLength := len,
            ContentType := ct } opts).1
        { Bucket := some b, Key := some k }
      = (some { LastModified := some sv.clock, ContentLength := (body.data.length : Int) },
          none) := by
  simp [Service.PutObject, Service.HeadObject, h, List.lookup]

/-- C4: over the modelled service, for every reader (seekable or not) with
content `c` and every key `p`, if `Save` returns no error then `Stat(p)` returns
no error and a `Stat` whose `Size` is `len(c)`. -/
theorem S3_Save_then_Stat_size (bucket : String) (tables : mime.Tables) (sv : Service)
    (content : Reader) (p : String)
    (h : (Storage.Save { bucket := bucket, s3 := Service.client, mimeTypes := tables }
            sv content p).2 = none) :
    ∃ t : Nat,
      Storage.Stat { bucket := bucket, s3 := Service.client, mimeTypes := tables }
          (Storage.Save { bucket := bucket, s3 := Service.client, mimeTypes := tables }
            sv content p).1 p
        = Outcome.ret
            (some { ModifiedTime := t, Size := (content.data.length : Int) }, none) := by
  refine ⟨sv.clock, ?_⟩
  obtain ⟨data, err, seekable⟩ := content
  cases seekable with
  | false =>
    cases err with
    | some e => simp [Storage.Save, io.ReadAll] at h
    | none =>
      simp only [Storage.Save, io.ReadAll, Storage.Stat, Service.client, Bool.false_eq_true,
        not_false_eq_true, if_true]
      rw [Service.head_after_put sv bucket p (bytes.NewBuffer data) _ _ _ rfl]
      simp [errorBranch_none, bytes.NewBuffer]
  | true =>
    cases err with
    | some e =>
      simp [Storage.Save, Service.client, Service.PutObject] at h
    | none =>
      simp only [Storage.Save, Storage.Stat, Service.client, not_true_eq_false, if_false]
      rw [Service.head_after_put sv bucket p _ _ _ _ rfl]
      simp [errorBranch_none]

/-- C4, at the test's input: saving `hello` to `world` gives size 5, from a
`*bytes.Buffer` (not seekable). -/
theorem S3_Save_then_Stat_size_witness :
    (mediaStorage.Save Service.empty (bytes.NewBuffer helloBytes) "world").2 = none ∧
    ∃ t : Nat,
      mediaStorage.Stat
          (mediaStorage.Save Service.empty (bytes.NewBuffer helloBytes) "world").1 "world"
        = Outcome.ret (some { ModifiedTime := t, Size := 5 }, none) :=
  ⟨by decide,
   S3_Save_then_Stat_size "media" mime.builtinTables Service.empty
     (bytes.NewBuffer helloBytes) "world" (by decide)⟩

/-- Scanning back from the end of a path over bytes that are neither a dot
nor a separator, up to a dot: the extension is the dot and what was scanned. -/
theorem extScan_dot (xs rest acc : List Char) (hdot : '.' ∉ xs) (hsep : '/' ∉ xs) :
    filepath.extScan (xs ++ '.' :: rest) acc = '.' :: (xs.reverse ++ acc) := by
  induction xs generalizing acc with
  | nil => simp [filepath.extScan]
  | cons c xs ih =>
    have hc1 : c ≠ '/' := fun e => hsep (by simp [e])
    have hc2 : c ≠ '.' := fun e => hdot (by simp [e])
    have h1 : '.' ∉ xs := fun m => hdot (List.mem_cons_of_mem _ m)
    have h2 : '/' ∉ xs := fun m => hsep (List.mem_cons_of_mem _ m)
    simp only [List.cons_append, filepath.extScan, hc1, hc2, if_false]
    have ih2 := ih (c :: acc) h1 h2
    simp only [List.append_eq] at ih2 ⊢
    rw [ih2]
    simp

/-- Scanning back from the end of a path over bytes that are neither a dot
nor a separator, up to a separator or the start: there is no extension. -/
theorem extScan_none (xs rest acc : List Char) (hdot : '.' ∉ xs) (hsep : '/' ∉ xs) :
    filepath.extScan (xs ++ '/' :: rest) acc = [] ∧ filepath.extScan xs acc = [] := by
  induction xs generalizing acc with
  | nil => simp [filepath.extScan]
  | cons c xs ih =>
    have hc1 : c ≠ '/' := fun e => hsep (by simp [e])
    have hc2 : c ≠ '.' := fun e => hdot (by simp [e])
    have h1 : '.' ∉ xs := fun m => hdot (List.mem_cons_of_mem _ m)
    have h2 : '/' ∉ xs := fun m => hsep (List.mem_cons_of_mem _ m)
    simp only [List.cons_append, filepath.extScan, hc1, hc2, if_false]
    exact ih _ h1 h2

/-- Go `filepath.Ext` of a path that ends in a dot followed by bytes that are
neither a dot nor a separator is that dot and those bytes. -/
theorem Ext_of_dot (pre suf : List Char) (hdot : '.' ∉ suf) (hsep : '/' ∉ suf) :
    filepath.Ext (String.mk (pre ++ '.' :: suf)) = String.mk ('.' :: suf) := by
  have h1 : '.' ∉ suf.reverse := by simpa using hdot
  have h2 : '/' ∉ suf.reverse := by simpa using hsep
  simp only [filepath.Ext, List.reverse_append, List.reverse_cons, List.append_assoc,
    List.singleton_append]
  rw [extScan_dot _ _ _ h1 h2]
  simp

/-- Go `filepath.Ext` of a path whose last element has no dot is empty. -/
theorem Ext_of_no_dot (pre suf : List Char) (hdot : '.' ∉ suf) (hsep : '/' ∉ suf) :
    filepath.Ext (String.mk (pre ++ '/' :: suf)) = "" ∧ filepath.Ext (String.mk suf) = "" := by
  have h1 : '.' ∉ suf.reverse := by simpa using hdot
  have h2 : '/' ∉ suf.reverse := by simpa using hsep
  refine ⟨?_, ?_⟩
  · simp only [filepath.Ext, List.reverse_append, List.reverse_cons, List.append_assoc,
      List.singleton_append]
    rw [(extScan_none _ _ _ h1 h2).1]
  · simp only [filepath.Ext]
    rw [(extScan_none _ [] _ h1 h2).2]

/-- C9: `Save` of the object-store adapter picks the upload by whether the
reader is an `io.Seeker`.  Not seekable: a read error is returned with the
service untouched and no call made; otherwise one `PutObject` is made whose
body is a buffer of exactly the bytes read, whose `ContentLength` is their
count, with no content type and the unsigned-payload option.  Seekable: one
`PutObject` is made whose body is the reader itself, with no content length
and `ContentType` the MIME type of `filepath.Ext(path)`.  The extension is the
last dot of the last path element and what follows it, and is empty when that
element has no dot; the MIME type is the table's entry for the extension, or
for its lower-cased form, and `""` when the extension is in neither table or
is absent; so a seekable upload of a path ending in a registered extension
carries that extension's type.  In both cases `Bucket` is the configured
bucket, `Key` the path as given, and the result of `PutObject` is the result
of `Save`. -/
theorem S3_Save_upload_strategy {σ : Type} (s : Storage σ) (st : σ) (content : Reader)
    (path : String) :
    (content.seekable = false → ∀ e, content.err = some e →
      s.Save st content path = (st, some e)) ∧
    (content.seekable = false → content.err = none →
      s.Save st content path =
        s.s3.PutObject st
          { Bucket := some s.bucket, Key := some path, Body := bytes.NewBuffer content.data,
            ContentLength := (content.data.length : Int), ContentType := none }
          [APIOption.SwapComputePayloadSHA256ForUnsignedPayloadMiddleware]) ∧
    (content.seekable = true →
      s.Save st content path =
        s.s3.PutObject st
          { Bucket := some s.bucket, Key := some path, Body := content,
            ContentLength := 0,
            ContentType := some (mime.TypeByExtension s.mimeTypes (filepath.Ext path)) }
          []) ∧
    (∀ ext : String, s.mimeTypes.mimeTypes.lookup ext = none →
      s.mimeTypes.mimeTypesLower.lookup (s.mimeTypes.ToLower ext) = none →
      s.mimeTypes.mimeTypesLower.lookup (String.mk (ext.data.map mime.lowerByte)) = none →
      mime.TypeByExtension s.mimeTypes ext = "") ∧
    (filepath.Ext path = "" → s.mimeTypes.mimeTypes.lookup "" = none →
      s.mimeTypes.mimeTypesLower.lookup "" = none →
      mime.TypeByExtension s.mimeTypes (filepath.Ext path) = "") ∧
    (∀ (ext v : String), s.mimeTypes.mimeTypes.lookup ext = some v →
      mime.TypeByExtension s.mimeTypes ext = v) ∧
    (∀ (ext v : String), s.mimeTypes.mimeTypes.lookup ext = none →
      ext.data.any (fun c => 128 ≤ c.toNat) = false →
      s.mimeTypes.mimeTypesLower.lookup (String.mk (ext.data.map mime.lowerByte)) = some v →
      mime.TypeByExtension s.mimeTypes ext = v) ∧
    (∀ (pre suf : List Char), '.' ∉ suf → '/' ∉ suf →
      filepath.Ext (String.mk (pre ++ '.' :: suf)) = String.mk ('.' :: suf) ∧
      filepath.Ext (String.mk (pre ++ '/' :: suf)) = "" ∧
      filepath.Ext (String.mk suf) = "") ∧
    (∀ (pre suf : List Char) (v : String), content.seekable = true →
      path = String.mk (pre ++ '.' :: suf) → '.' ∉ suf → '/' ∉ suf →
      s.mimeTypes.mimeTypes.lookup (String.mk ('.' :: suf)) = some v →
      s.Save st content path =
        s.s3.PutObject st
          { Bucket := some s.bucket, Key := some path, Body := content,
            ContentLength := 0, ContentType := some v } []) := by
  have hknown : ∀ (ext v : String), s.mimeTypes.mimeTypes.lookup ext = some v →
      mime.TypeByExtension s.mimeTypes ext = v := by
    intro ext v h1
    simp only [mime.TypeByExtension, h1]
  refine ⟨?_, ?_, ?_, ?_, ?_, hknown, ?_, ?_, ?_⟩
  · intro hs e he
    simp [Storage.Save, io.ReadAll, hs, he]
  · intro hs he
    simp [Storage.Save, io.ReadAll, hs, he]
  · intro hs
    simp [Storage.Save, hs]
  · intro ext h1 h2 h3
    simp only [mime.TypeByExtension, h1, h2, h3]
    split <;> rfl
  · intro hext h1 h2
    rw [hext]
    simp only [mime.TypeByExtension, h1]
    have : ("" : String).data = [] := rfl
    simp [this, h2]
  · intro ext v h1 h2 h3
    simp only [mime.TypeByExtension, h1, h2, h3]
    simp
  · intro pre suf hdot hsep
    exact ⟨Ext_of_dot pre suf hdot hsep, Ext_of_no_dot pre suf hdot hsep⟩
  · intro pre suf v hs hp hdot hsep hv
    have hext : filepath.Ext path = String.mk ('.' :: suf) := by
      rw [hp]; exact Ext_of_dot pre suf hdot hsep
    simp [Storage.Save, hs, hext, hknown _ _ hv]

/-- C9, at concrete readers over the modelled service: a failing pipe, a
`*bytes.Buffer` and a `*bytes.Reader`, with the paths `world` (no extension),
`img/logo.png` (registered extension) and the extensions `.xyz` (unknown) and
`.PNG` (registered in lower case). -/
theorem S3_Save_upload_strategy_witness :
    mediaStorage.Save Service.empty
        { data := helloBytes, err := some connectionRefused, seekable := false } "world"
      = (Service.empty, some connectionRefused) ∧
    mediaStorage.Save Service.empty (bytes.NewBuffer helloBytes) "world"
      = Service.PutObject Service.empty
          { Bucket := some "media", Key := some "world", Body := bytes.NewBuffer helloBytes,
            ContentLength := 5, ContentType := none }
          [APIOption.SwapComputePayloadSHA256ForUnsignedPayloadMiddleware] ∧
    mediaStorage.Save Service.empty (bytes.NewReader helloBytes) "world"
      = Service.PutObject Service.empty
          { Bucket := some "media", Key := some "world", Body := bytes.NewReader helloBytes,
            ContentLength := 0, ContentType := some "" } [] ∧
    mime.TypeByExtension mime.builtinTables ".xyz" = "" ∧
    mime.TypeByExtension mime.builtinTables (filepath.Ext "world") = "" ∧
    mime.TypeByExtension mime.builtinTables ".png" = "image/png" ∧
    mime.TypeByExtension mime.builtinTables ".PNG" = "image/png" ∧
    filepath.Ext "img/logo.png" = ".png" ∧
    mediaStorage.Save Service.empty (bytes.NewReader helloBytes) "img/logo.png"
      = Service.PutObject Service.empty
          { Bucket := some "media", Key := some "img/logo.png",
            Body := bytes.NewReader helloBytes,
            ContentLength := 0, ContentType := some "image/png" } [] ∧
    (mediaStorage.Save Service.empty (bytes.NewReader helloBytes) "img/logo.png").1.objects
      = [(("media", "img/logo.png"),
          { body := helloBytes, contentType := some "image/png", lastModified := 0 })] := by
  have h := S3_Save_upload_strategy mediaStorage Service.empty
  have hlogo := (h (bytes.NewReader helloBytes) "img/logo.png").2.2.2.2.2.2.2.2
    "img/logo".data "png".data "image/png" rfl (by decide) (by decide) (by decide) (by decide)
  refine ⟨(h { data := helloBytes, err := some connectionRefused, seekable := false }
              "world").1 rfl _ rfl,
          (h (bytes.NewBuffer helloBytes) "world").2.1 rfl rfl,
          ?_, ?_, ?_, ?_, ?_, ?_, hlogo, ?_⟩
  · have h3 := (h (bytes.NewReader helloBytes) "world").2.2.1 rfl
    rw [h3]
    decide
  · exact (h (bytes.NewReader helloBytes) "world").2.2.2.1 ".xyz"
      (by decide) (by decide) (by decide)
  · exact (h (bytes.NewReader helloBytes) "world").2.2.2.2.1 (by decide) (by decide) (by decide)
  · exact (h (bytes.NewReader helloBytes) "world").2.2.2.2.2.1 ".png" "image/png" (by decide)
  · exact (h (bytes.NewReader helloBytes) "world").2.2.2.2.2.2.1 ".PNG" "image/png"
      (by decide) (by decide) (by decide)
  · exact ((h (bytes.NewReader helloBytes) "world").2.2.2.2.2.2.2.1
      "img/logo".data "png".data (by decide) (by decide)).1
  · rw [hlogo]
    decide

end S3

/-! ## Theorems: the filesystem adapter -/

namespace os.FileSystem

/-- Looking a key up after every binding of `p` has been filtered out. -/
theorem lookup_filter_ne (l : List (String × Node)) (p q : String) :
    (l.filter (fun kv => kv.1 ≠ p)).lookup q = if q = p then none else l.lookup q := by
  induction l with
  | nil => simp [List.lookup]
  | cons kv rest ih =>
    obtain ⟨k, n⟩ := kv
    rw [List.filter_cons]
    by_cases hk : k = p
    · have hd : decide ((k, n).1 ≠ p) = false := by simp [hk]
      rw [hd]
      simp only [Bool.false_eq_true, if_false]
      rw [ih]
      by_cases hq : q = p
      · simp [hq]
      · have hqk : (q == k) = false := by rw [hk]; simpa using hq
        simp only [hq, if_false, List.lookup, hqk]
    · have hd : decide ((k, n).1 ≠ p) = true := by simp [hk]
      rw [hd]
      simp only [if_true, List.lookup]
      cases hqk : (q == k) with
      | false => simpa using ih
      | true =>
        have hqk2 : q = k := by simpa using hqk
        have hq : q ≠ p := by rw [hqk2]; exact hk
        simp [hq]

/-- A path at which nothing is found is not one of the fixed directories. -/
theorem isFixedDir_of_lookup_none (fs : FileSystem) (p : String) (h : fs.lookup p = none) :
    isFixedDir p = false := by
  by_cases hp : p = ""
  · subst hp; decide
  · cases hfix : isFixedDir p with
    | false => rfl
    | true => simp [lookup, hp, hfix] at h

/-- A path that names a file is neither empty nor a fixed directory. -/
theorem not_fixed_of_lookup_file (fs : FileSystem) (p : String) (d : List Byte) (t : Nat)
    (h : fs.lookup p = some (Node.file d t)) : p ≠ "" ∧ isFixedDir p = false := by
  by_cases hp : p = ""
  · subst hp; simp [lookup] at h
  · refine ⟨hp, ?_⟩
    cases hfix : isFixedDir p with
    | false => rfl
    | true => simp [lookup, hp, hfix] at h

/-- The node just written is the node found. -/
theorem lookup_write_same (fs : FileSystem) (p : String) (n : Node)
    (hp : p ≠ "") (hfix : isFixedDir p = false) : (fs.write p n).lookup p = some n := by
  simp [lookup, write, hp, hfix, List.lookup]

/-- Writing at `p` leaves every other path as it was. -/
theorem lookup_write_other (fs : FileSystem) (p q : String) (n : Node) (h : q ≠ p) :
    (fs.write p n).lookup q = fs.lookup q := by
  have hqp : (q == p) = false := by simpa using h
  have hf := lookup_filter_ne fs.nodes p q
  simp only [h, if_false] at hf
  simp only [lookup, write, List.lookup, hqp, hf]

/-- Nothing is found at a path just erased. -/
theorem lookup_erase_same (fs : FileSystem) (p : String) (hfix : isFixedDir p = false) :
    (fs.erase p).lookup p = none := by
  have hf := lookup_filter_ne fs.nodes p p
  simp only [if_true] at hf
  simp only [lookup, erase, hfix, hf]
  simp

/-- Erasing `p` leaves every other path as it was. -/
theorem lookup_erase_other (fs : FileSystem) (p q : String) (h : q ≠ p) :
    (fs.erase p).lookup q = fs.lookup q := by
  have hf := lookup_filter_ne fs.nodes p q
  simp only [h, if_false] at hf
  simp only [lookup, erase, hf]

/-- A successful `Create` wrote an empty file at a path that is neither empty
nor a fixed directory. -/
theorem create_ok (fs fs1 : FileSystem) (name : String) (w : File)
    (h : Create fs name = (fs1, Except.ok w)) :
    name ≠ "" ∧ isFixedDir name = false ∧ w.name = name ∧
      fs1 = fs.write name (Node.file [] fs.clock) := by
  unfold Create at h
  by_cases hn : name = ""
  · simp [hn] at h
  · simp only [hn, if_false] at h
    have hfix : isFixedDir name = false := by
      cases hf : isFixedDir name with
      | false => rfl
      | true => simp [lookup, hn, hf] at h
    refine ⟨hn, hfix, ?_⟩
    split at h
    · simp at h
    · split at h
      · simp only [Prod.mk.injEq, Except.ok.injEq] at h
        exact ⟨by rw [← h.2], h.1.symm⟩
      · simp at h
      · simp at h

end os.FileSystem

namespace FS

open os.FileSystem

/-- After a `Save` on the modelled machine that returned no error, the
resolved path names a file holding exactly the bytes of the reader. -/
theorem save_ok_lookup (root : String) (fs0 : os.FileSystem) (content : Reader) (p : String)
    (h : ((onModel root).Save fs0 content p).2 = none) :
    ∃ t : Nat, ((onModel root).Save fs0 content p).1.lookup ((onModel root).abs p)
      = some (os.Node.file content.data t) := by
  simp only [Storage.Save, Storage.abs, onModel, NewStorage, os.FileSystem.sys] at h ⊢
  generalize filepath.Join root p = a at h ⊢
  rcases hm : MkdirAll fs0 (filepath.Dir a) 0o755 with ⟨st1, e1⟩
  rw [hm] at h
  cases e1 with
  | some e => simp at h
  | none =>
    dsimp only at h ⊢
    rcases hc : Create st1 a with ⟨st2, r⟩
    rw [hc] at h
    cases r with
    | error e => simp at h
    | ok w =>
      dsimp only at h ⊢
      obtain ⟨hne, hfix, hw, hst2⟩ := create_ok st1 st2 a w hc
      have hl : st2.lookup w.name = some (os.Node.file [] st1.clock) := by
        rw [hw, hst2]; exact lookup_write_same _ _ _ hne hfix
      have hcopy : Copy st2 w content =
          (st2.write w.name (os.Node.file ([] ++ content.data) st2.clock), content.err) := by
        simp [Copy, hl]
      rw [hcopy] at h ⊢
      cases herr : content.err with
      | some e => rw [herr] at h; simp at h
      | none =>
        refine ⟨st2.clock, ?_⟩
        simp only [Close, hw, List.nil_append]
        exact lookup_write_same _ _ _ hne hfix

/-- What `Stat` and `Open` of the adapter give on the modelled machine for a
path that names a file. -/
theorem stat_open_of_file (root : String) (fs : os.FileSystem) (p : String)
    (d : List Byte) (t : Nat)
    (h : fs.lookup ((onModel root).abs p) = some (os.Node.file d t)) :
    (onModel root).Stat fs p = (some { ModifiedTime := t, Size := (d.length : Int) }, none) ∧
    (onModel root).Open fs p
      = (io.ReadCloser.osFile (some { name := (onModel root).abs p }), none) ∧
    (onModel root).readStream fs (io.ReadCloser.osFile (some { name := (onModel root).abs p }))
      = some d := by
  have hno : os.IsNotExist none = false := rfl
  refine ⟨?_, ?_, ?_⟩
  · simp only [Storage.Stat, onModel, NewStorage, os.FileSystem.sys] at h ⊢
    simp [os.FileSystem.Stat, h, hno]
  · simp only [Storage.Open, onModel, NewStorage, os.FileSystem.sys] at h ⊢
    simp [os.FileSystem.Open, h, hno]
  · simp only [Storage.readStream, onModel, NewStorage, os.FileSystem.sys] at h ⊢
    simp [os.FileSystem.ReadAll, h]

/-- What `Stat` and `Open` of the adapter give on the modelled machine for a
path that names nothing. -/
theorem stat_open_of_absent (root : String) (fs : os.FileSystem) (p : String)
    (h : fs.lookup ((onModel root).abs p) = none) :
    (onModel root).Stat fs p = (none, some storages.ErrNotExist) ∧
    (onModel root).Open fs p = (io.ReadCloser.nil, some storages.ErrNotExist) := by
  have hne : ∀ op a, os.IsNotExist (some (GoError.pathError op a (GoError.errno syscall.ENOENT)))
      = true := by
    intro op a; rfl
  refine ⟨?_, ?_⟩
  · simp only [Storage.Stat, onModel, NewStorage, os.FileSystem.sys] at h ⊢
    simp [os.FileSystem.Stat, h, hne]
  · simp only [Storage.Open, onModel, NewStorage, os.FileSystem.sys] at h ⊢
    simp [os.FileSystem.Open, h, hne]

end FS

namespace FS

open os.FileSystem

/-- C3: on the modelled machine, for every reader with content `c` and every
path `p`, if `Save` returns no error then `Stat(p)` returns no error and a
`Stat` whose `Size` is `len(c)`, and `Open(p)` returns no error and a stream
that reads back exactly `c`. -/
theorem FS_Save_then_Stat_Open (root : String) (fs0 : os.FileSystem) (content : Reader)
    (p : String) (h : ((onModel root).Save fs0 content p).2 = none) :
    (∃ t : Nat, (onModel root).Stat ((onModel root).Save fs0 content p).1 p
        = (some { ModifiedTime := t, Size := (content.data.length : Int) }, none)) ∧
    (∃ r : io.ReadCloser, (onModel root).Open ((onModel root).Save fs0 content p).1 p = (r, none) ∧
        (onModel root).readStream ((onModel root).Save fs0 content p).1 r = some content.data) := by
  obtain ⟨t, ht⟩ := save_ok_lookup root fs0 content p h
  obtain ⟨h1, h2, h3⟩ := stat_open_of_file root _ p content.data t ht
  exact ⟨⟨t, h1⟩, ⟨_, h2, h3⟩⟩

/-- C3, at the scenario of the specification: `hello` saved to `world`. -/
theorem FS_Save_then_Stat_Open_witness :
    (srvStorage.Save os.FileSystem.empty (bytes.NewBuffer helloBytes) "world").2 = none ∧
    (∃ t : Nat, srvStorage.Stat savedHello "world" = (some { ModifiedTime := t, Size := 5 }, none)) ∧
    (∃ r : io.ReadCloser, srvStorage.Open savedHello "world" = (r, none) ∧
        srvStorage.readStream savedHello r = some helloBytes) :=
  ⟨by decide,
   FS_Save_then_Stat_Open "/srv" os.FileSystem.empty (bytes.NewBuffer helloBytes) "world"
     (by decide)⟩

/-- C5: error normalisation of `Stat` and `Open` of the filesystem adapter,
for every machine.  A native error for which `os.IsNotExist` holds becomes
`(nil, ErrNotExist)`; any other native error `e` is returned as `e` itself; a
native success gives the file's size and modification time, respectively the
opened file, with a nil error.  The error returned is the sentinel exactly
when the native call failed with a not-found error, the native error never
being the adapter's own sentinel value. -/
theorem FS_Stat_Open_error_normalisation {σ : Type} (fs : Storage σ) (st : σ) (path : String) :
    (∀ e, fs.sys.Stat st (fs.abs path) = Except.error e → os.IsNotExist (some e) = true →
      fs.Stat st path = (none, some storages.ErrNotExist)) ∧
    (∀ e, fs.sys.Stat st (fs.abs path) = Except.error e → os.IsNotExist (some e) = false →
      fs.Stat st path = (none, some e)) ∧
    (∀ fi, fs.sys.Stat st (fs.abs path) = Except.ok fi →
      fs.Stat st path = (some { ModifiedTime := fi.ModTime, Size := fi.Size }, none)) ∧
    (∀ e, fs.sys.Open st (fs.abs path) = Except.error e → os.IsNotExist (some e) = true →
      fs.Open st path = (io.ReadCloser.nil, some storages.ErrNotExist)) ∧
    (∀ e, fs.sys.Open st (fs.abs path) = Except.error e → os.IsNotExist (some e) = false →
      (fs.Open st path).2 = some e) ∧
    (∀ f, fs.sys.Open st (fs.abs path) = Except.ok f →
      fs.Open st path = (io.ReadCloser.osFile (some f), none)) ∧
    ((∀ e, fs.sys.Stat st (fs.abs path) = Except.error e → e ≠ storages.ErrNotExist) →
      ((fs.Stat st path).2 = some storages.ErrNotExist ↔
        ∃ e, fs.sys.Stat st (fs.abs path) = Except.error e ∧ os.IsNotExist (some e) = true)) ∧
    ((∀ e, fs.sys.Open st (fs.abs path) = Except.error e → e ≠ storages.ErrNotExist) →
      ((fs.Open st path).2 = some storages.ErrNotExist ↔
        ∃ e, fs.sys.Open st (fs.abs path) = Except.error e ∧ os.IsNotExist (some e) = true)) := by
  have hno : os.IsNotExist none = false := rfl
  refine ⟨?_, ?_, ?_, ?_, ?_, ?_, ?_, ?_⟩
  · intro e he hn; simp [Storage.Stat, he, hn]
  · intro e he hn; simp [Storage.Stat, he, hn]
  · intro fi he; simp [Storage.Stat, he, hno]
  · intro e he hn; simp [Storage.Open, he, hn]
  · intro e he hn; simp [Storage.Open, he, hn]
  · intro f he; simp [Storage.Open, he, hno]
  · intro hsent
    cases hr : fs.sys.Stat st (fs.abs path) with
    | error e =>
      cases hn : os.IsNotExist (some e) with
      | true => simp [Storage.Stat, hr, hn]
      | false =>
        have := hsent e hr
        simp [Storage.Stat, hr, hn, this]
    | ok fi => simp [Storage.Stat, hr, hno]
  · intro hsent
    cases hr : fs.sys.Open st (fs.abs path) with
    | error e =>
      cases hn : os.IsNotExist (some e) with
      | true => simp [Storage.Open, hr, hn]
      | false =>
        have := hsent e hr
        simp [Storage.Open, hr, hn, this]
    | ok f => simp [Storage.Open, hr, hno]

/-- C5, at a missing file and at a stored file of the modelled machine, and
on a machine that refuses every call with `EACCES`. -/
theorem FS_Stat_Open_error_normalisation_witness :
    srvStorage.Stat savedHello "nothing" = (none, some storages.ErrNotExist) ∧
    deniedStorage.Stat () "world"
      = (none, some (GoError.pathError "stat" "/srv/world" (GoError.errno syscall.EACCES))) ∧
    srvStorage.Stat savedHello "world" = (some { ModifiedTime := 2, Size := 5 }, none) ∧
    srvStorage.Open savedHello "nothing" = (io.ReadCloser.nil, some storages.ErrNotExist) ∧
    (deniedStorage.Open () "world").2
      = some (GoError.pathError "open" "/srv/world" (GoError.errno syscall.EACCES)) ∧
    srvStorage.Open savedHello "world"
      = (io.ReadCloser.osFile (some { name := "/srv/world" }), none) ∧
    ((srvStorage.Stat savedHello "nothing").2 = some storages.ErrNotExist ↔
      ∃ e, srvStorage.sys.Stat savedHello (srvStorage.abs "nothing") = Except.error e ∧
        os.IsNotExist (some e) = true) ∧
    ((srvStorage.Open savedHello "nothing").2 = some storages.ErrNotExist ↔
      ∃ e, srvStorage.sys.Open savedHello (srvStorage.abs "nothing") = Except.error e ∧
        os.IsNotExist (some e) = true) := by
  have hm := FS_Stat_Open_error_normalisation srvStorage savedHello "nothing"
  have hs := FS_Stat_Open_error_normalisation srvStorage savedHello "world"
  have hd := FS_Stat_Open_error_normalisation deniedStorage () "world"
  have hstat : srvStorage.sys.Stat savedHello (srvStorage.abs "nothing")
      = Except.error (GoError.pathError "stat" "/srv/nothing" (GoError.errno syscall.ENOENT)) := by
    decide
  have hopen : srvStorage.sys.Open savedHello (srvStorage.abs "nothing")
      = Except.error (GoError.pathError "open" "/srv/nothing" (GoError.errno syscall.ENOENT)) := by
    decide
  refine ⟨hm.1 _ hstat (by decide), hd.2.1 _ (by decide) (by decide),
    hs.2.2.1 { Size := 5, ModTime := 2, IsDir := false } (by decide),
    hm.2.2.2.1 _ hopen (by decide),
    hd.2.2.2.2.1 _ (by decide) (by decide), hs.2.2.2.2.2.1 _ (by decide), ?_, ?_⟩
  · refine hm.2.2.2.2.2.2.1 ?_
    intro e he
    rw [hstat] at he
    cases he
    decide
  · refine hm.2.2.2.2.2.2.2 ?_
    intro e he
    rw [hopen] at he
    cases he
    decide

/-- C6: on the modelled machine, after `Save(c1, p)` and then `Save(c2, p)`
both returned no error, `Stat(p)` gives `Size == len(c2)` and `Open(p)` reads
back exactly `c2`. -/
theorem FS_Save_twice_replaces (root : String) (fs0 : os.FileSystem) (c1 c2 : Reader)
    (p : String) (_h1 : ((onModel root).Save fs0 c1 p).2 = none)
    (h2 : ((onModel root).Save ((onModel root).Save fs0 c1 p).1 c2 p).2 = none) :
    (∃ t : Nat,
      (onModel root).Stat ((onModel root).Save ((onModel root).Save fs0 c1 p).1 c2 p).1 p
        = (some { ModifiedTime := t, Size := (c2.data.length : Int) }, none)) ∧
    (∃ r : io.ReadCloser,
      (onModel root).Open ((onModel root).Save ((onModel root).Save fs0 c1 p).1 c2 p).1 p
        = (r, none) ∧
      (onModel root).readStream ((onModel root).Save ((onModel root).Save fs0 c1 p).1 c2 p).1 r
        = some c2.data) := by
  obtain ⟨t, ht⟩ := save_ok_lookup root _ c2 p h2
  obtain ⟨g1, g2, g3⟩ := stat_open_of_file root _ p c2.data t ht
  exact ⟨⟨t, g1⟩, ⟨_, g2, g3⟩⟩

/-- C6, at the scenario of the specification: `hello` and then `hi` saved
to `world` leaves size 2 and content `hi`. -/
theorem FS_Save_twice_replaces_witness :
    (srvStorage.Save os.FileSystem.empty (bytes.NewBuffer helloBytes) "world").2 = none ∧
    (srvStorage.Save savedHello (bytes.NewBuffer hiBytes) "world").2 = none ∧
    (∃ t : Nat,
      srvStorage.Stat (srvStorage.Save savedHello (bytes.NewBuffer hiBytes) "world").1 "world"
        = (some { ModifiedTime := t, Size := 2 }, none)) ∧
    (∃ r : io.ReadCloser,
      srvStorage.Open (srvStorage.Save savedHello (bytes.NewBuffer hiBytes) "world").1 "world"
        = (r, none) ∧
      srvStorage.readStream (srvStorage.Save savedHello (bytes.NewBuffer hiBytes) "world").1 r
        = some hiBytes) :=
  ⟨by decide, by decide,
   FS_Save_twice_replaces "/srv" os.FileSystem.empty (bytes.NewBuffer helloBytes)
     (bytes.NewBuffer hiBytes) "world" (by decide) (by decide)⟩

end FS

namespace FS

open os.FileSystem

/-- On the modelled machine `Stat`, `Open` and reading depend only on the
node the path names. -/
theorem model_congr (fs1 fs2 : os.FileSystem) (a : String)
    (h : fs1.lookup a = fs2.lookup a) :
    os.FileSystem.Stat fs1 a = os.FileSystem.Stat fs2 a ∧
    os.FileSystem.Open fs1 a = os.FileSystem.Open fs2 a ∧
    os.FileSystem.ReadAll fs1 { name := a } = os.FileSystem.ReadAll fs2 { name := a } := by
  simp only [os.FileSystem.Stat, os.FileSystem.Open, os.FileSystem.ReadAll, h, and_self]

/-- A successful `Remove` of a path that names a file leaves the table with
that path erased. -/
theorem remove_file (fs : os.FileSystem) (a : String) (d : List Byte) (t : Nat)
    (h : fs.lookup a = some (os.Node.file d t)) (hok : (os.FileSystem.Remove fs a).2 = none) :
    os.FileSystem.Remove fs a = (fs.erase a, none) := by
  obtain ⟨_, hfix⟩ := not_fixed_of_lookup_file fs a d t h
  cases hb : fs.belowFile a with
  | true => simp [os.FileSystem.Remove, hfix, hb] at hok
  | false => simp [os.FileSystem.Remove, hfix, hb, h]

/-- The bytes read from a stream depend only on what reading its file gives. -/
theorem readStream_congr (root : String) (fs1 fs2 : os.FileSystem) (r : io.ReadCloser)
    (h : ∀ f, r = io.ReadCloser.osFile (some f) →
      os.FileSystem.ReadAll fs1 f = os.FileSystem.ReadAll fs2 f) :
    (onModel root).readStream fs1 r = (onModel root).readStream fs2 r := by
  cases r with
  | nil => rfl
  | body data => rfl
  | osFile o =>
    cases o with
    | none => rfl
    | some f =>
      simp only [Storage.readStream, onModel, NewStorage, os.FileSystem.sys]
      rw [h f rfl]

/-- The file `Open` returns on the modelled machine is named by the resolved
path. -/
theorem open_file_name (root : String) (fs : os.FileSystem) (q : String) (f : os.File)
    (h : ((onModel root).Open fs q).1 = io.ReadCloser.osFile (some f)) :
    f = { name := (onModel root).abs q } := by
  have hno : os.IsNotExist none = false := rfl
  simp only [Storage.Open, onModel, NewStorage, os.FileSystem.sys, os.FileSystem.Open] at h ⊢
  split at h
  · split at h
    · simp at h
    · simp at h
  · rename_i g hg
    simp only [hno, Bool.false_eq_true, if_false, io.ReadCloser.osFile.injEq,
      Option.some.injEq] at h
    split at hg
    · simp only [Except.ok.injEq] at hg
      rw [← h, ← hg]
    · simp at hg

/-- C7, as stated, fails: with `hello` saved to `world`, `Delete("world")`
returns no error, and the blob read through the other path `./world` is
gone as well, both paths resolving to `/srv/world`. -/
theorem FS_Delete_other_path_changed :
    savedHello.lookup (srvStorage.abs "world") = some (os.Node.file helloBytes 2) ∧
    "./world" ≠ "world" ∧
    (srvStorage.Delete savedHello "world").2 = none ∧
    srvStorage.Stat savedHello "./world" = (some { ModifiedTime := 2, Size := 5 }, none) ∧
    srvStorage.Stat (srvStorage.Delete savedHello "world").1 "./world"
      = (none, some storages.ErrNotExist) ∧
    srvStorage.Open (srvStorage.Delete savedHello "world").1 "./world"
      = (io.ReadCloser.nil, some storages.ErrNotExist) := by
  refine ⟨by decide, by decide, by decide, by decide, by decide, by decide⟩

/-- C7, amended: on the modelled machine, for every path `p` that names a
stored blob, if `Delete(p)` returns no error then `Stat(p)` and `Open(p)` fail
with `ErrNotExist`, and for every path `q` that resolves to another file than
`p` does, `Stat(q)`, `Open(q)` and the bytes read from the opened stream are
what they were before. -/
theorem FS_Delete_then_not_exist (root : String) (fs : os.FileSystem) (p : String)
    (d : List Byte) (t : Nat)
    (hstored : fs.lookup ((onModel root).abs p) = some (os.Node.file d t))
    (hdel : ((onModel root).Delete fs p).2 = none) :
    (onModel root).Stat ((onModel root).Delete fs p).1 p = (none, some storages.ErrNotExist) ∧
    (onModel root).Open ((onModel root).Delete fs p).1 p
      = (io.ReadCloser.nil, some storages.ErrNotExist) ∧
    ∀ q : String, (onModel root).abs q ≠ (onModel root).abs p →
      (onModel root).Stat ((onModel root).Delete fs p).1 q = (onModel root).Stat fs q ∧
      (onModel root).Open ((onModel root).Delete fs p).1 q = (onModel root).Open fs q ∧
      (onModel root).readStream ((onModel root).Delete fs p).1
          ((onModel root).Open ((onModel root).Delete fs p).1 q).1
        = (onModel root).readStream fs ((onModel root).Open fs q).1 := by
  obtain ⟨_, hfix⟩ := not_fixed_of_lookup_file fs _ d t hstored
  have hrem : (onModel root).Delete fs p = (fs.erase ((onModel root).abs p), none) :=
    remove_file fs _ d t hstored hdel
  rw [hrem]
  have habsent := stat_open_of_absent root (fs.erase ((onModel root).abs p)) p
    (lookup_erase_same fs _ hfix)
  refine ⟨habsent.1, habsent.2, ?_⟩
  intro q hq
  have hl : (fs.erase ((onModel root).abs p)).lookup ((onModel root).abs q)
      = fs.lookup ((onModel root).abs q) := lookup_erase_other fs _ _ hq
  obtain ⟨c1, c2, c3⟩ := model_congr _ _ _ hl
  have hstat : (onModel root).Stat (fs.erase ((onModel root).abs p)) q
      = (onModel root).Stat fs q := by
    simp only [Storage.Stat, onModel, NewStorage, os.FileSystem.sys] at c1 ⊢
    rw [c1]
  have hopen : (onModel root).Open (fs.erase ((onModel root).abs p)) q
      = (onModel root).Open fs q := by
    simp only [Storage.Open, onModel, NewStorage, os.FileSystem.sys] at c2 ⊢
    rw [c2]
  refine ⟨hstat, hopen, ?_⟩
  rw [hopen]
  apply readStream_congr
  intro f hf
  rw [open_file_name root fs q f hf]
  exact c3

/-- C7 amended, at the scenario of the specification: `hello` saved to
`world`, a second blob at `other`, then `world` deleted. -/
theorem FS_Delete_then_not_exist_witness :
    (srvStorage.Save savedHello (bytes.NewBuffer hiBytes) "other").1.lookup
        (srvStorage.abs "world") = some (os.Node.file helloBytes 2) ∧
    srvStorage.Stat
        (srvStorage.Delete (srvStorage.Save savedHello (bytes.NewBuffer hiBytes) "other").1
          "world").1 "world"
      = (none, some storages.ErrNotExist) ∧
    srvStorage.Stat
        (srvStorage.Delete (srvStorage.Save savedHello (bytes.NewBuffer hiBytes) "other").1
          "world").1 "other"
      = srvStorage.Stat (srvStorage.Save savedHello (bytes.NewBuffer hiBytes) "other").1
          "other" := by
  have h := FS_Delete_then_not_exist "/srv"
    (srvStorage.Save savedHello (bytes.NewBuffer hiBytes) "other").1 "world" helloBytes 2
    (by decide) (by decide)
  exact ⟨by decide, h.1, (h.2.2 "other" (by decide)).1⟩

end FS

/-- Filtering out a key that is not bound leaves the table as it was. -/
theorem S3.Service.filter_absent (l : List ((String × String) × S3.Object)) (k : String × String)
    (h : l.lookup k = none) : l.filter (fun kv => kv.1 ≠ k) = l := by
  induction l with
  | nil => rfl
  | cons kv rest ih =>
    obtain ⟨k1, o⟩ := kv
    simp only [List.lookup] at h
    cases hk : (k == k1) with
    | true => rw [hk] at h; simp at h
    | false =>
      rw [hk] at h
      have hne : k1 ≠ k := by
        intro e
        rw [e] at hk
        simp at hk
      have hd : decide ((k1, o).1 ≠ k) = true := by simpa using hne
      rw [List.filter_cons, hd, if_pos rfl, ih h]

/-- C8, as stated, fails for the filesystem adapter.  With `hello` saved to
`world` under `/srv`, nothing is stored at `world/x`, and `Delete` returns the
`*PathError` of `remove` with `ENOTDIR`, which is no file-not-found error.  No
blob is stored at the directory path `""` either: `Delete` returns `ENOTEMPTY`
while the directory holds `world`, and nil, removing the directory, once
`world` is deleted. -/
theorem FS_Delete_absent_other_errors :
    FS.savedHello.lookup (FS.srvStorage.abs "world/x") = none ∧
    FS.srvStorage.Delete FS.savedHello "world/x"
      = (FS.savedHello, some (GoError.pathError "remove" "/srv/world/x"
          (GoError.errno syscall.ENOTDIR))) ∧
    os.IsNotExist (some (GoError.pathError "remove" "/srv/world/x"
      (GoError.errno syscall.ENOTDIR))) = false ∧
    FS.savedHello.lookup (FS.srvStorage.abs "") = some (os.Node.dir 0) ∧
    FS.srvStorage.Delete FS.savedHello ""
      = (FS.savedHello, some (GoError.pathError "remove" "/srv"
          (GoError.errno syscall.ENOTEMPTY))) ∧
    os.IsNotExist (some (GoError.pathError "remove" "/srv"
      (GoError.errno syscall.ENOTEMPTY))) = false ∧
    (FS.srvStorage.Delete (FS.srvStorage.Delete FS.savedHello "world").1 "").2 = none := by
  refine ⟨by decide, by decide, by decide, by decide, by decide, by decide, by decide⟩

/-- C8, amended: `Delete` maps no error in either adapter.  The filesystem
adapter returns what `os.Remove` of the resolved path returns; on the modelled
machine, for a path that names neither a file nor a directory and lies below
no regular file, that is the `*PathError` of `remove` with `ENOENT`: a non-nil
error for which `os.IsNotExist` holds and which is not the sentinel
`ErrNotExist`, the machine being left as it was.  The object-store adapter
returns what `DeleteObject` returns, which on the modelled service is nil for
an absent key, the stored objects being left as they were. -/
theorem Delete_asymmetry :
    (∀ (σ : Type) (fs : FS.Storage σ) (st : σ) (p : String),
      fs.Delete st p = fs.sys.Remove st (fs.abs p)) ∧
    (∀ (root : String) (fs : os.FileSystem) (p : String),
      fs.lookup ((FS.onModel root).abs p) = none →
      fs.belowFile ((FS.onModel root).abs p) = false →
      (FS.onModel root).Delete fs p
          = (fs, some (GoError.pathError "remove" ((FS.onModel root).abs p)
              (GoError.errno syscall.ENOENT))) ∧
        GoError.pathError "remove" ((FS.onModel root).abs p) (GoError.errno syscall.ENOENT)
          ≠ storages.ErrNotExist ∧
        os.IsNotExist (some (GoError.pathError "remove" ((FS.onModel root).abs p)
          (GoError.errno syscall.ENOENT))) = true ∧
        errors.Is (some (GoError.pathError "remove" ((FS.onModel root).abs p)
          (GoError.errno syscall.ENOENT))) storages.ErrNotExist = false) ∧
    (∀ (σ : Type) (s : S3.Storage σ) (st : σ) (p : String),
      s.Delete st p = s.s3.DeleteObject st { Bucket := some s.bucket, Key := some p }) ∧
    (∀ (bucket : String) (tables : mime.Tables) (sv : S3.Service) (p : String),
      sv.objects.lookup (bucket, p) = none →
      (S3.Storage.Delete { bucket := bucket, s3 := S3.Service.client, mimeTypes := tables }
        sv p).2 = none ∧
      (S3.Storage.Delete { bucket := bucket, s3 := S3.Service.client, mimeTypes := tables }
        sv p).1.objects = sv.objects) := by
  refine ⟨fun _ _ _ _ => rfl, ?_, fun _ _ _ _ => rfl, ?_⟩
  · intro root fs p h hb
    have hfix := os.FileSystem.isFixedDir_of_lookup_none fs _ h
    refine ⟨?_, by simp [storages.ErrNotExist], rfl, ?_⟩
    · simp only [FS.Storage.Delete, FS.onModel, FS.NewStorage, os.FileSystem.sys] at h hfix hb ⊢
      simp [os.FileSystem.Remove, hfix, hb, h]
    · simp [errors.Is, GoError.chain, errors.isStep, storages.ErrNotExist, syscall.Errno_Is,
        oserror.ErrPermission, oserror.ErrExist, oserror.ErrNotExist]
  · intro bucket tables sv p h
    refine ⟨by simp [S3.Storage.Delete, S3.Service.client, S3.Service.DeleteObject], ?_⟩
    simp only [S3.Storage.Delete, S3.Service.client, S3.Service.DeleteObject]
    exact S3.Service.filter_absent sv.objects (bucket, p) h

/-- C8 amended, at the path `nothing` of the modelled machine that holds only
`/srv/world`, and at the key `doesnotexist` of the modelled service that holds
only `world`. -/
theorem Delete_asymmetry_witness :
    FS.srvStorage.Delete FS.savedHello "nothing"
      = (FS.savedHello, some (GoError.pathError "remove" "/srv/nothing"
          (GoError.errno syscall.ENOENT))) ∧
    (S3.mediaStorage.Delete
        (S3.mediaStorage.Save S3.Service.empty (bytes.NewBuffer helloBytes) "world").1
        "doesnotexist").2 = none ∧
    (S3.mediaStorage.Delete
        (S3.mediaStorage.Save S3.Service.empty (bytes.NewBuffer helloBytes) "world").1
        "doesnotexist").1.objects
      = (S3.mediaStorage.Save S3.Service.empty (bytes.NewBuffer helloBytes) "world").1.objects :=
  ⟨(Delete_asymmetry.2.1 "/srv" FS.savedHello "nothing" (by decide) (by decide)).1,
   Delete_asymmetry.2.2.2 "media" mime.builtinTables
     (S3.mediaStorage.Save S3.Service.empty (bytes.NewBuffer helloBytes) "world").1
     "doesnotexist" (by decide)⟩

/-! ## Theorems: path resolution -/

namespace filepath

/-- A path always has at least one element. -/
theorem splitSep_ne_nil (cs : List Char) : splitSep cs ≠ [] := by
  cases cs with
  | nil => simp [splitSep]
  | cons c cs =>
    simp only [splitSep]
    split
    · simp
    · split <;> simp

/-- The elements of two paths joined by a separator are the elements of the
first followed by the elements of the second. -/
theorem splitSep_append (a b : List Char) :
    splitSep (a ++ '/' :: b) = splitSep a ++ splitSep b := by
  induction a with
  | nil => simp [splitSep]
  | cons c a ih =>
    by_cases hc : c = '/'
    · simp [splitSep, hc, ih]
    · simp only [List.cons_append, splitSep, hc, if_false]
      have ih2 : splitSep (a.append ('/' :: b)) = splitSep a ++ splitSep b := ih
      rw [ih2]
      cases hs : splitSep a with
      | nil => exact absurd hs (splitSep_ne_nil a)
      | cons seg rest => simp

/-- Over elements none of which is `..`, the loop of `Clean` only appends the
real elements. -/
theorem foldl_cleanStep_append (rooted : Bool) (segs : List (List Char))
    (out : List (List Char)) (h : ['.', '.'] ∉ segs) :
    segs.foldl (cleanStep rooted) out
      = out ++ segs.filter (fun s => decide (¬ (s = [] ∨ s = ['.']))) := by
  induction segs generalizing out with
  | nil => simp
  | cons seg rest ih =>
    have hseg : seg ≠ ['.', '.'] := fun e => h (by simp [e])
    have hrest : ['.', '.'] ∉ rest := fun m => h (List.mem_cons_of_mem _ m)
    rw [List.foldl_cons, ih _ hrest, List.filter_cons]
    by_cases hskip : seg = [] ∨ seg = ['.']
    · simp [cleanStep, hskip]
    · simp [cleanStep, hskip, hseg]

/-- The elements joined: the first, then each other one after a separator. -/
theorem joinSep_cons (a : List Char) (rest : List (List Char)) :
    joinSep (a :: rest) = a ++ (rest.map (fun s => '/' :: s)).flatten := by
  induction rest generalizing a with
  | nil => simp [joinSep]
  | cons b rest ih => simp [joinSep, ih]

/-- What `Clean` writes for the elements `out` starts what it writes for
`out` followed by more elements, unless `out` is empty and the path is not
rooted. -/
theorem render_append (rooted : Bool) (out more : List (List Char))
    (h : rooted = true ∨ out ≠ []) :
    render rooted out <+: render rooted (out ++ more) := by
  cases out with
  | nil =>
    have hr : rooted = true := by
      cases h with
      | inl h => exact h
      | inr h => exact absurd rfl h
    simp only [render, hr, if_true, List.nil_append, joinSep]
    exact ⟨joinSep more, rfl⟩
  | cons a rest =>
    have e1 : joinSep (a :: rest ++ more)
        = joinSep (a :: rest) ++ (more.map (fun s => '/' :: s)).flatten := by
      rw [List.cons_append, joinSep_cons, joinSep_cons]
      simp
    cases rooted with
    | true =>
      simp only [render, if_true]
      rw [e1]
      exact ⟨(more.map (fun s => '/' :: s)).flatten, by simp⟩
    | false =>
      simp only [render, Bool.false_eq_true, if_false]
      have hne : (a :: rest ++ more) ≠ [] := by simp
      simp only [hne, if_false, List.cons_ne_nil]
      rw [e1]
      exact ⟨(more.map (fun s => '/' :: s)).flatten, rfl⟩

/-- For a root that does not clean to `.` and a path with no `..` element,
the cleaned root starts the cleaned join. -/
theorem clean_root_isStart (root path : String) (hroot : Clean root ≠ ".")
    (hpath : hasDotDot path = false) :
    (Clean root).data <+: (Join root path).data := by
  have hne : root ≠ "" := by
    intro e
    apply hroot
    simp [Clean, e]
  have hdata : root.data ≠ [] := by
    intro e
    apply hne
    cases root
    simp_all
  have hjoin_ne : root ++ "/" ++ path ≠ "" := by
    intro e
    have := congrArg String.data e
    simp only [String.data_append] at this
    simp at this
  have hjd : (root ++ "/" ++ path).data = root.data ++ '/' :: path.data := by
    simp only [String.data_append]
    simp
  simp only [Join, hne, ne_eq, not_false_eq_true, if_true, Clean, hjoin_ne, if_false, hjd,
    cleanChars]
  have hhead : (root.data ++ '/' :: path.data).head? = root.data.head? := by
    cases hd : root.data with
    | nil => exact absurd hd hdata
    | cons c cs => simp
  rw [hhead, splitSep_append, List.foldl_append]
  have hno : ['.', '.'] ∉ splitSep path.data := by
    simpa [hasDotDot] using hpath
  rw [foldl_cleanStep_append _ _ _ hno]
  apply render_append
  by_cases hr : root.data.head? = some '/'
  · left; simp [hr]
  · right
    intro hout
    apply hroot
    have hr2 : decide (root.data.head? = some '/') = false := by simpa using hr
    rw [hr2] at hout
    simp only [Clean, hne, if_false, cleanChars, hr2, render, hout, Bool.false_eq_true, if_true]

end filepath

namespace FS

/-- C10, as stated, fails: with the root `.` and the path `a`, which has no
`..` element, the resolved path is `a` and the cleaned root `.` does not start
it. -/
theorem FS_abs_root_not_start :
    filepath.hasDotDot "a" = false ∧
    (onModel ".").abs "a" = "a" ∧
    filepath.Clean "." = "." ∧
    ¬ ((filepath.Clean ".").data <+: ((onModel ".").abs "a").data) := by
  refine ⟨by decide, by decide, by decide, by decide⟩

/-- C10, amended: `abs(path)` is `filepath.Join(root, path)`, the cleaned join
of a non-empty root and the path, with no check.  With the root `/data` the
path `../etc/passwd` resolves to `/etc/passwd`, which `/data` does not start,
and `Save`, `Stat`, `Open` and `Delete` work on that file.  For every root that
does not clean to `.` and every path with no `..` element the cleaned root
starts the resolved path. -/
theorem FS_abs_resolution :
    (∀ (σ : Type) (fs : Storage σ) (path : String), fs.abs path = filepath.Join fs.root path) ∧
    (∀ (σ : Type) (fs : Storage σ) (path : String), fs.root ≠ "" →
      fs.abs path = filepath.Clean (fs.root ++ "/" ++ path)) ∧
    (filepath.hasDotDot "../etc/passwd" = true ∧
      dataStorage.abs "../etc/passwd" = "/etc/passwd" ∧
      ¬ ((filepath.Clean "/data").data <+: (dataStorage.abs "../etc/passwd").data) ∧
      (dataStorage.Save os.FileSystem.empty (bytes.NewBuffer helloBytes) "../etc/passwd").1.lookup
          "/etc/passwd" = some (os.Node.file helloBytes 2) ∧
      dataStorage.Stat
          (dataStorage.Save os.FileSystem.empty (bytes.NewBuffer helloBytes) "../etc/passwd").1
          "../etc/passwd" = (some { ModifiedTime := 2, Size := 5 }, none) ∧
      dataStorage.Open
          (dataStorage.Save os.FileSystem.empty (bytes.NewBuffer helloBytes) "../etc/passwd").1
          "../etc/passwd" = (io.ReadCloser.osFile (some { name := "/etc/passwd" }), none) ∧
      (dataStorage.Delete
          (dataStorage.Save os.FileSystem.empty (bytes.NewBuffer helloBytes) "../etc/passwd").1
          "../etc/passwd").1.lookup "/etc/passwd" = none) ∧
    (∀ (σ : Type) (fs : Storage σ) (path : String), filepath.Clean fs.root ≠ "." →
      filepath.hasDotDot path = false →
      (filepath.Clean fs.root).data <+: (fs.abs path).data) := by
  refine ⟨fun _ _ _ => rfl, ?_, ?_, ?_⟩
  · intro σ fs path h
    simp [Storage.abs, filepath.Join, h]
  · refine ⟨by decide, by decide, by decide, by decide, by decide, by decide, by decide⟩
  · intro σ fs path h1 h2
    exact filepath.clean_root_isStart fs.root path h1 h2

/-- C10 amended, at the root `/srv` and the path `a/./b//c`. -/
theorem FS_abs_resolution_witness :
    srvStorage.abs "a/./b//c" = filepath.Clean ("/srv" ++ "/" ++ "a/./b//c") ∧
    (filepath.Clean "/srv").data <+: (srvStorage.abs "a/./b//c").data :=
  ⟨FS_abs_resolution.2.1 os.FileSystem srvStorage "a/./b//c" (by decide),
   FS_abs_resolution.2.2.2 os.FileSystem srvStorage "a/./b//c" (by decide) (by decide)⟩

end FS
